import Mathlib

/-!
Verification of the reporting annotator of the `cgbs-planner` backend
(`src/backend/main.py`, `src/backend/schemas.py`, `src/backend/models.py`).

Shallow embedding conventions:
* calendar dates and clock times are modelled as integers (`Int`) with the
  usual order, since only `≤`, `<` and `=` on them matter to the code;
* the relational store is a `DB` value holding the list of events, the list
  of reporting rows in insertion order, and the next autoincrement id;
* a SQLAlchemy `query(...).filter(...).all()` is an order-preserving
  `List.filter`; `order_by(id.desc()).first()` on reporting rows is the
  max-id row of the filtered list;
* mutating a loaded ORM row in place is `List.set` at that row's position;
* Python truthiness of `x or d` is made explicit (`0` and `""` are falsy);
* the pydantic schema `ReportingCreate` (required `event_id`/`visitor`,
  optional rest) is a validation function from a raw payload in which every
  field may be absent.
-/

namespace CgbsPlanner

/-- A category row (`models.Category`); only `id` and `name` are relevant
to the annotator. -/
structure Category where
  id : Int
  name : String
  deriving DecidableEq

/-- An event row (`models.Event`) with its loaded categories. -/
structure Event where
  id : Int
  title : String
  start_date : Option Int
  end_date : Option Int
  start_time : Option Int
  categories : List Category
  deriving DecidableEq

/-- A reporting row (`models.Reporting`).  `id` is the autoincrement primary
key; `visitor`, `vacation`, `holiday`, `special` are nullable columns. -/
structure Reporting where
  id : Nat
  event_id : Int
  event_title : String
  event_date : Option Int
  event_start_time : Option Int
  visitor : Option Int
  vacation : Option String
  holiday : Option String
  special : Option String
  deriving DecidableEq

/-- The validated request body (`schemas.ReportingCreate`): `event_id` and
`visitor` are required (`int`), all other fields optional with default
`None`. -/
structure ReportingCreate where
  event_id : Int
  visitor : Int
  vacation : Option String
  holiday : Option String
  special : Option String
  event_title : Option String
  event_date : Option Int
  event_start_time : Option Int
  deriving DecidableEq

/-- A raw JSON payload for the reporting endpoints: every field may be
absent. -/
structure RawReporting where
  event_id : Option Int
  visitor : Option Int
  vacation : Option String
  holiday : Option String
  special : Option String
  event_title : Option String
  event_date : Option Int
  event_start_time : Option Int
  deriving DecidableEq

/-- Pydantic validation of `schemas.ReportingCreate`: rejects the payload
when a required field (`event_id : int`, `visitor : int`) is absent or
null; optional fields default to `None`. -/
def ReportingCreate.validate (raw : RawReporting) : Option ReportingCreate :=
  match raw.event_id, raw.visitor with
  | some eid, some v =>
      some { event_id := eid, visitor := v, vacation := raw.vacation,
             holiday := raw.holiday, special := raw.special,
             event_title := raw.event_title, event_date := raw.event_date,
             event_start_time := raw.event_start_time }
  | _, _ => none

/-- Database state: event rows, reporting rows in insertion order, and the
next autoincrement id for the reporting table. -/
structure DB where
  events : List Event
  reportings : List Reporting
  next_id : Nat
  deriving DecidableEq

/-- Python `x or d` on an integer: `0` is the only falsy value. -/
def pyIntOr (x d : Int) : Int :=
  if x = 0 then d else x

/-- Python `x or d` on an optional string: `None` and `""` are falsy. -/
def pyStrOr (x : Option String) (d : String) : String :=
  match x with
  | none => d
  | some s => if s = "" then d else s

/-- Python `a if a is not None else b` on optionals. -/
def mergeOpt (a b : Option String) : Option String :=
  match a with
  | some v => some v
  | none => b

/-- `{c.name for c in (other.categories or [])}` as a list of names
(membership queries only, so order is irrelevant). -/
def catNames (e : Event) : List String :=
  e.categories.map (fun c => c.name)

/-- `other.end_date is not None and other.end_date < event_date`. -/
def endsBefore (e : Event) (d : Int) : Bool :=
  match e.end_date with
  | some ed => decide (ed < d)
  | none => false

/-- `db.query(Event).filter(Event.id != event.id)
       .filter(Event.start_date <= event_date).all()`;
rows with NULL `start_date` fail a SQL comparison and are excluded. -/
def overlappingEvents (events : List Event) (selfId : Int) (d : Int) : List Event :=
  events.filter (fun e =>
    (!(e.id == selfId)) &&
    (match e.start_date with
     | some sd => decide (sd ≤ d)
     | none => false))

/-- The `for other in overlapping_events` loop: skip candidates that end
strictly before the event date, then record the first `"Ferien"` title and
the first `"Feiertag"` title without overwriting. -/
def detectVacationHoliday (cands : List Event) (d : Int) :
    Option String × Option String :=
  cands.foldl
    (fun vh other =>
      if endsBefore other d then vh
      else
        let cats := catNames other
        ((if cats.contains "Ferien" && vh.1.isNone then some other.title else vh.1),
         (if cats.contains "Feiertag" && vh.2.isNone then some other.title else vh.2)))
    (none, none)

/-- `db.query(Event).filter(Event.id != event.id)
       .filter(Event.start_date == event_date)
       .filter(Event.start_time == event_time).all()`. -/
def sameDateTimeEvents (events : List Event) (selfId : Int) (d t : Int) : List Event :=
  events.filter (fun e =>
    (!(e.id == selfId)) && e.start_date == some d && e.start_time == some t)

/-- The `for other in same_dt_events` loop: collect non-empty titles of
events carrying category `"Lobpreisabend"` or `"Special"`. -/
def specialTitlesOf (slot : List Event) : List String :=
  (slot.filter (fun other =>
    ((catNames other).contains "Lobpreisabend" ||
     (catNames other).contains "Special") &&
    (!(other.title == "")))).map (fun other => other.title)

/-- The seen-set deduplication loop, keeping the first occurrence of each
title; `seen` is the set of titles already emitted. -/
def dedupTitles (seen : List String) : List String → List String
  | [] => []
  | t :: ts =>
      if seen.contains t then dedupTitles seen ts
      else t :: dedupTitles (t :: seen) ts

/-- `", ".join(deduped)` when `special_titles` is non-empty, else `None`. -/
def specialValueOf (titles : List String) : Option String :=
  match titles with
  | [] => none
  | _ => some (String.intercalate ", " (dedupTitles [] titles))

/-- The whole auto-detection block of `create_reporting_entry`: returns
`(vacation_title, holiday_title, special_value)`; every detection is
skipped when the event has no start date, and the same-slot query is
skipped when it has no start time. -/
def detectAuto (events : List Event) (ev : Event) :
    Option String × Option String × Option String :=
  match ev.start_date with
  | none => (none, none, specialValueOf [])
  | some event_date =>
      let vh := detectVacationHoliday (overlappingEvents events ev.id event_date) event_date
      let special_titles :=
        match ev.start_time with
        | none => []
        | some event_time =>
            specialTitlesOf (sameDateTimeEvents events ev.id event_date event_time)
      (vh.1, vh.2, specialValueOf special_titles)

/-- `db.query(Reporting).filter(Reporting.event_id == eid)
       .order_by(Reporting.id.desc()).first()`, together with the list
position of the returned row (the position at which the in-place update
lands). -/
def latestWithIdx : List Reporting → Int → Option (Nat × Reporting)
  | [], _ => none
  | r :: rs, eid =>
      match latestWithIdx rs eid with
      | none => if r.event_id == eid then some (0, r) else none
      | some (j, b) =>
          if r.event_id == eid && decide (b.id ≤ r.id) then some (0, r)
          else some (j + 1, b)

/-- The reporting row built by the manual fallback of
`create_reporting_entry` (and by `create_reporting_entry_manual`). -/
def manualEntry (reporting_in : ReportingCreate) (newId : Nat) : Reporting :=
  { id := newId,
    event_id := pyIntOr reporting_in.event_id 99,
    event_title := pyStrOr reporting_in.event_title "",
    event_date := reporting_in.event_date,
    event_start_time := reporting_in.event_start_time,
    visitor := some reporting_in.visitor,
    vacation := reporting_in.vacation,
    holiday := reporting_in.holiday,
    special := reporting_in.special }

/-- `POST /reporting` (`create_reporting_entry` in `main.py`): resolve the
event; fall back to a plain insert when it does not exist; otherwise run
auto-detection and update the latest reporting row for the event in place,
or insert a fresh one. Returns the new store state and the returned row. -/
def create_reporting_entry (db : DB) (reporting_in : ReportingCreate) :
    DB × Reporting :=
  match db.events.find? (fun e => e.id == reporting_in.event_id) with
  | none =>
      let reporting := manualEntry reporting_in db.next_id
      ({ db with reportings := db.reportings ++ [reporting],
                 next_id := db.next_id + 1 }, reporting)
  | some event =>
      let ann := detectAuto db.events event
      match latestWithIdx db.reportings event.id with
      | some (j, existing) =>
          let updated : Reporting :=
            { existing with
              event_title := event.title,
              event_date := event.start_date,
              event_start_time := event.start_time,
              visitor := some reporting_in.visitor,
              vacation := mergeOpt ann.1 reporting_in.vacation,
              holiday := mergeOpt ann.2.1 reporting_in.holiday,
              special := mergeOpt ann.2.2 reporting_in.special }
          ({ db with reportings := db.reportings.set j updated }, updated)
      | none =>
          let reporting : Reporting :=
            { id := db.next_id,
              event_id := event.id,
              event_title := event.title,
              event_date := event.start_date,
              event_start_time := event.start_time,
              visitor := some reporting_in.visitor,
              vacation := mergeOpt ann.1 reporting_in.vacation,
              holiday := mergeOpt ann.2.1 reporting_in.holiday,
              special := mergeOpt ann.2.2 reporting_in.special }
          ({ db with reportings := db.reportings ++ [reporting],
                     next_id := db.next_id + 1 }, reporting)

/-- `POST /reporting/manual` (`create_reporting_entry_manual` in
`main.py`): always insert a fresh row built from the payload alone. -/
def create_reporting_entry_manual (db : DB) (reporting_in : ReportingCreate) :
    DB × Reporting :=
  let reporting := manualEntry reporting_in db.next_id
  ({ db with reportings := db.reportings ++ [reporting],
             next_id := db.next_id + 1 }, reporting)

/-- The `POST /reporting` endpoint including pydantic validation of the raw
payload; `none` is a 422 validation error (no row touched). -/
def submit_reporting (db : DB) (raw : RawReporting) : Option (DB × Reporting) :=
  (ReportingCreate.validate raw).map (fun rin => create_reporting_entry db rin)

/-- The `POST /reporting/manual` endpoint including pydantic validation. -/
def submit_reporting_manual (db : DB) (raw : RawReporting) :
    Option (DB × Reporting) :=
  (ReportingCreate.validate raw).map (fun rin => create_reporting_entry_manual db rin)

/-- Number of reporting rows whose `event_id` equals `eid`. -/
def countFor (l : List Reporting) (eid : Int) : Nat :=
  (l.filter (fun r => r.event_id == eid)).length

/-! ### Generic list helpers -/

theorem get?_set_self {α : Type} {l : List α} {j : Nat} {b : α} (a : α)
    (h : l.get? j = some b) : (l.set j a).get? j = some a := by
  induction l generalizing j with
  | nil => simp at h
  | cons x xs ih =>
      cases j with
      | zero => rfl
      | succ n => exact ih (by simpa using h)

theorem get?_set_ne {α : Type} {l : List α} {j : Nat} (a : α) (k : Nat)
    (hk : k ≠ j) : (l.set j a).get? k = l.get? k := by
  induction l generalizing j k with
  | nil => simp
  | cons x xs ih =>
      cases j with
      | zero =>
          cases k with
          | zero => exact absurd rfl hk
          | succ m => rfl
      | succ n =>
          cases k with
          | zero => rfl
          | succ m => simpa using ih m (fun hc => hk (by simp [hc]))

theorem find?_filter_eq {α : Type} (l : List α) (p q : α → Bool) :
    (l.filter p).find? q = l.find? (fun a => p a && q a) := by
  induction l with
  | nil => rfl
  | cons x xs ih =>
      by_cases hp : p x = true
      · by_cases hq : q x = true
        · simp [List.filter, List.find?, hp, hq]
        · simp only [Bool.not_eq_true] at hq
          simp [List.filter, List.find?, hp, hq, ih]
      · simp only [Bool.not_eq_true] at hp
        simp [List.filter, List.find?, hp, ih]

theorem find?_ext {α : Type} (l : List α) (p q : α → Bool)
    (h : ∀ a, p a = q a) : l.find? p = l.find? q := by
  have : p = q := funext h
  rw [this]

theorem filter_filter_eq {α : Type} (l : List α) (p q : α → Bool) :
    (l.filter p).filter q = l.filter (fun a => p a && q a) := by
  induction l with
  | nil => rfl
  | cons x xs ih =>
      by_cases hp : p x = true
      · by_cases hq : q x = true
        · simp [List.filter, hp, hq, ih]
        · simp only [Bool.not_eq_true] at hq
          simp [List.filter, hp, hq, ih]
      · simp only [Bool.not_eq_true] at hp
        simp [List.filter, hp, ih]

/-! ### `mergeOpt` and `pyIntOr` facts -/

theorem mergeOpt_none_left (b : Option String) : mergeOpt none b = b := rfl

theorem mergeOpt_none_right (a : Option String) : mergeOpt a none = a := by
  cases a <;> rfl

theorem mergeOpt_some_left (v : String) (b : Option String) :
    mergeOpt (some v) b = some v := rfl

/-- The key identity relating the loop's non-overwriting update to a
first-match recursion. -/
theorem mergeOpt_step (c : Bool) (t : String) (v x : Option String) :
    mergeOpt (if c && v.isNone then some t else v) x
      = mergeOpt v (if c then some t else x) := by
  cases c <;> cases v <;> simp [mergeOpt]

/-! ### `countFor` facts -/

theorem countFor_cons (r : Reporting) (rs : List Reporting) (eid : Int) :
    countFor (r :: rs) eid
      = (if r.event_id = eid then 1 else 0) + countFor rs eid := by
  by_cases h : r.event_id = eid
  · simp [countFor, List.filter_cons, h, Nat.add_comm]
  · simp [countFor, List.filter_cons, h]

theorem countFor_append_single (l : List Reporting) (e : Reporting) (eid : Int) :
    countFor (l ++ [e]) eid
      = countFor l eid + (if e.event_id = eid then 1 else 0) := by
  by_cases h : e.event_id = eid
  · simp [countFor, List.filter_append, List.filter_cons, h]
  · simp [countFor, List.filter_append, List.filter_cons, h]

theorem countFor_set {l : List Reporting} {j : Nat} {b : Reporting}
    (b2 : Reporting) (hj : l.get? j = some b)
    (hb : b2.event_id = b.event_id) (eid : Int) :
    countFor (l.set j b2) eid = countFor l eid := by
  induction l generalizing j with
  | nil => simp at hj
  | cons r rs ih =>
      cases j with
      | zero =>
          have hrb : b = r := by simpa using hj.symm
          subst hrb
          simp only [List.set]
          rw [countFor_cons, countFor_cons, hb]
      | succ n =>
          simp only [List.set]
          rw [countFor_cons, countFor_cons, ih (by simpa using hj)]

/-! ### `latestWithIdx` facts -/

theorem latestWithIdx_get? {l : List Reporting} {eid : Int} {j : Nat}
    {b : Reporting} (h : latestWithIdx l eid = some (j, b)) :
    l.get? j = some b := by
  induction l generalizing j b with
  | nil => simp [latestWithIdx] at h
  | cons r rs ih =>
      simp only [latestWithIdx] at h
      cases hrec : latestWithIdx rs eid with
      | none =>
          rw [hrec] at h
          by_cases hc : (r.event_id == eid) = true
          · simp only [hc, if_true] at h
            obtain ⟨rfl, rfl⟩ := (by simpa using h : 0 = j ∧ r = b)
            rfl
          · simp only [Bool.not_eq_true] at hc
            simp [hc] at h
      | some jb =>
          obtain ⟨j2, b2⟩ := jb
          rw [hrec] at h
          by_cases hc : (r.event_id == eid && decide (b2.id ≤ r.id)) = true
          · simp only [hc, if_true] at h
            obtain ⟨rfl, rfl⟩ := (by simpa using h : 0 = j ∧ r = b)
            rfl
          · simp only [Bool.not_eq_true] at hc
            simp only [hc, if_false] at h
            obtain ⟨rfl, rfl⟩ := (by simpa using h : j2 + 1 = j ∧ b2 = b)
            simpa using ih hrec

theorem latestWithIdx_event_id {l : List Reporting} {eid : Int} {j : Nat}
    {b : Reporting} (h : latestWithIdx l eid = some (j, b)) :
    b.event_id = eid := by
  induction l generalizing j b with
  | nil => simp [latestWithIdx] at h
  | cons r rs ih =>
      simp only [latestWithIdx] at h
      cases hrec : latestWithIdx rs eid with
      | none =>
          rw [hrec] at h
          by_cases hc : (r.event_id == eid) = true
          · simp only [hc, if_true] at h
            obtain ⟨rfl, rfl⟩ := (by simpa using h : 0 = j ∧ r = b)
            simpa using hc
          · simp only [Bool.not_eq_true] at hc
            simp [hc] at h
      | some jb =>
          obtain ⟨j2, b2⟩ := jb
          rw [hrec] at h
          by_cases hc : (r.event_id == eid && decide (b2.id ≤ r.id)) = true
          · simp only [hc, if_true] at h
            obtain ⟨rfl, rfl⟩ := (by simpa using h : 0 = j ∧ r = b)
            simp only [Bool.and_eq_true] at hc
            simpa using hc.1
          · simp only [Bool.not_eq_true] at hc
            simp only [hc, if_false] at h
            obtain ⟨rfl, rfl⟩ := (by simpa using h : j2 + 1 = j ∧ b2 = b)
            exact ih hrec

theorem latestWithIdx_none {l : List Reporting} {eid : Int}
    (h : latestWithIdx l eid = none) : ∀ r ∈ l, r.event_id ≠ eid := by
  induction l with
  | nil => intro r hr; simp at hr
  | cons r rs ih =>
      intro x hx
      simp only [latestWithIdx] at h
      cases hrec : latestWithIdx rs eid with
      | none =>
          rw [hrec] at h
          by_cases hc : (r.event_id == eid) = true
          · simp [hc] at h
          · simp only [Bool.not_eq_true] at hc
            rcases List.mem_cons.mp hx with rfl | hxs
            · simpa using hc
            · exact ih hrec x hxs
      | some jb =>
          obtain ⟨j2, b2⟩ := jb
          rw [hrec] at h
          by_cases hc : (r.event_id == eid && decide (b2.id ≤ r.id)) = true
          · simp [hc] at h
          · simp [hc] at h

theorem latestWithIdx_max {l : List Reporting} {eid : Int} {j : Nat}
    {b : Reporting} (h : latestWithIdx l eid = some (j, b)) :
    ∀ r ∈ l, r.event_id = eid → r.id ≤ b.id := by
  induction l generalizing j b with
  | nil => simp [latestWithIdx] at h
  | cons r rs ih =>
      intro x hx hxid
      simp only [latestWithIdx] at h
      cases hrec : latestWithIdx rs eid with
      | none =>
          rw [hrec] at h
          by_cases hc : (r.event_id == eid) = true
          · simp only [hc, if_true] at h
            obtain ⟨rfl, rfl⟩ := (by simpa using h : 0 = j ∧ r = b)
            rcases List.mem_cons.mp hx with rfl | hxs
            · exact le_refl _
            · exact absurd hxid (latestWithIdx_none hrec x hxs)
          · simp only [Bool.not_eq_true] at hc
            simp [hc] at h
      | some jb =>
          obtain ⟨j2, b2⟩ := jb
          rw [hrec] at h
          by_cases hc : (r.event_id == eid && decide (b2.id ≤ r.id)) = true
          · simp only [hc, if_true] at h
            obtain ⟨rfl, rfl⟩ := (by simpa using h : 0 = j ∧ r = b)
            rcases List.mem_cons.mp hx with rfl | hxs
            · exact le_refl _
            · have hand : (r.event_id == eid) = true ∧ decide (b2.id ≤ r.id) = true := by
                simpa only [Bool.and_eq_true] using hc
              have h2 : b2.id ≤ r.id := by simpa using hand.2
              exact le_trans (ih hrec x hxs hxid) h2
          · simp only [Bool.not_eq_true] at hc
            simp only [hc, if_false] at h
            obtain ⟨rfl, rfl⟩ := (by simpa using h : j2 + 1 = j ∧ b2 = b)
            rcases List.mem_cons.mp hx with rfl | hxs
            · have hid : (x.event_id == eid) = true := by simpa using hxid
              simp only [hid, Bool.true_and] at hc
              have hnle : x.id < b2.id := by simpa using hc
              omega
            · exact ih hrec x hxs hxid

theorem latestWithIdx_isSome_of_mem {l : List Reporting} {eid : Int}
    {r : Reporting} (hmem : r ∈ l) (hid : r.event_id = eid) :
    (latestWithIdx l eid).isSome := by
  cases h : latestWithIdx l eid with
  | none => exact absurd hid (latestWithIdx_none h r hmem)
  | some jb => simp

/-! ### First-match characterisation of the vacation/holiday loop -/

theorem not_decide_lt (a b : Int) : (!decide (a < b)) = decide (b ≤ a) := by
  by_cases hab : a < b <;> simp [hab, not_lt.mp]

theorem contains_iff_mem (l : List String) (a : String) :
    l.contains a = true ↔ a ∈ l := by
  simp [List.contains_iff_exists_mem_beq]

/-- The title of the first candidate that survives the end-date skip and
carries the category `cat`. -/
def firstSurvivorTitle (cands : List Event) (d : Int) (cat : String) :
    Option String :=
  (cands.find? (fun e => (!endsBefore e d) && (catNames e).contains cat)).map
    (fun e => e.title)

theorem detectVacationHoliday_go (cands : List Event) (d : Int)
    (v h : Option String) :
    cands.foldl
      (fun vh other =>
        if endsBefore other d then vh
        else
          let cats := catNames other
          ((if cats.contains "Ferien" && vh.1.isNone then some other.title else vh.1),
           (if cats.contains "Feiertag" && vh.2.isNone then some other.title else vh.2)))
      (v, h)
      = (mergeOpt v (firstSurvivorTitle cands d "Ferien"),
         mergeOpt h (firstSurvivorTitle cands d "Feiertag")) := by
  induction cands generalizing v h with
  | nil => simp [firstSurvivorTitle, mergeOpt_none_right]
  | cons a cs ih =>
      by_cases hE : endsBefore a d = true
      · have hskip : ∀ cat, firstSurvivorTitle (a :: cs) d cat
            = firstSurvivorTitle cs d cat := by
          intro cat
          simp [firstSurvivorTitle, List.find?, hE]
        simp only [List.foldl_cons, hE, if_true]
        rw [ih, hskip, hskip]
      · simp only [Bool.not_eq_true] at hE
        have hkeep : ∀ cat, firstSurvivorTitle (a :: cs) d cat
            = if (catNames a).contains cat then some a.title
              else firstSurvivorTitle cs d cat := by
          intro cat
          by_cases hct : ((catNames a).contains cat) = true
          · have hm : cat ∈ catNames a := (contains_iff_mem _ _).mp hct
            simp [firstSurvivorTitle, List.find?, hE, hm]
          · have hm : cat ∉ catNames a := fun m => hct ((contains_iff_mem _ _).mpr m)
            simp [firstSurvivorTitle, List.find?, hE, hm]
        simp only [List.foldl_cons, hE, Bool.false_eq_true, if_false]
        rw [ih, hkeep, hkeep]
        exact congrArg₂ Prod.mk (mergeOpt_step _ _ _ _) (mergeOpt_step _ _ _ _)

theorem detectVacationHoliday_eq (cands : List Event) (d : Int) :
    detectVacationHoliday cands d
      = (firstSurvivorTitle cands d "Ferien",
         firstSurvivorTitle cands d "Feiertag") := by
  unfold detectVacationHoliday
  rw [detectVacationHoliday_go]
  rw [mergeOpt_none_left, mergeOpt_none_left]

/-- Following the specification text: the first other event whose start
date is ≤ `d`, whose end date is absent or ≥ `d`, and whose category-name
set contains `cat`, supplies its title. -/
def specFirstOverlapTitle (events : List Event) (selfId : Int) (d : Int)
    (cat : String) : Option String :=
  (events.find? (fun e =>
    (!(e.id == selfId)) &&
    (match e.start_date with | some sd => decide (sd ≤ d) | none => false) &&
    (match e.end_date with | some ed => decide (d ≤ ed) | none => true) &&
    (catNames e).contains cat)).map (fun e => e.title)

theorem firstSurvivor_overlapping_eq (events : List Event) (selfId : Int)
    (d : Int) (cat : String) :
    firstSurvivorTitle (overlappingEvents events selfId d) d cat
      = specFirstOverlapTitle events selfId d cat := by
  unfold firstSurvivorTitle specFirstOverlapTitle overlappingEvents
  rw [find?_filter_eq]
  congr 1
  apply find?_ext
  intro e
  cases hed : e.end_date with
  | none => simp [endsBefore, hed, Bool.and_assoc]
  | some ed => simp [endsBefore, hed, Bool.and_assoc, not_decide_lt]

/-- Following the specification text: the non-empty titles of all other
events with exactly the same start date and start time whose category set
contains `"Lobpreisabend"` or `"Special"`, in store order. -/
def specSameSlotTitles (events : List Event) (selfId : Int) (d t : Int) :
    List String :=
  (events.filter (fun e =>
    (!(e.id == selfId)) && e.start_date == some d && e.start_time == some t &&
    ((catNames e).contains "Lobpreisabend" || (catNames e).contains "Special") &&
    (!(e.title == "")))).map (fun e => e.title)

theorem specialTitles_eq (events : List Event) (selfId : Int) (d t : Int) :
    specialTitlesOf (sameDateTimeEvents events selfId d t)
      = specSameSlotTitles events selfId d t := by
  unfold specialTitlesOf sameDateTimeEvents specSameSlotTitles
  rw [filter_filter_eq]
  congr 1
  have hpred : (fun e : Event =>
      ((!(e.id == selfId)) && e.start_date == some d && e.start_time == some t) &&
      (((catNames e).contains "Lobpreisabend" ||
        (catNames e).contains "Special") && (!(e.title == ""))))
      = (fun e : Event =>
      (!(e.id == selfId)) && e.start_date == some d && e.start_time == some t &&
      ((catNames e).contains "Lobpreisabend" ||
       (catNames e).contains "Special") && (!(e.title == ""))) := by
    funext e
    simp [Bool.and_assoc]
  rw [hpred]

/-! ### Deduplication facts -/

theorem dedupTitles_sublist (seen : List String) (l : List String) :
    (dedupTitles seen l).Sublist l := by
  induction l generalizing seen with
  | nil => simp [dedupTitles]
  | cons t ts ih =>
      by_cases hc : (seen.contains t) = true
      · simp only [dedupTitles, hc, if_true]
        exact (ih seen).cons t
      · simp only [Bool.not_eq_true] at hc
        simp only [dedupTitles, hc, Bool.false_eq_true, if_false]
        exact (ih (t :: seen)).cons₂ t

theorem dedupTitles_mem (seen : List String) (l : List String) (x : String) :
    x ∈ dedupTitles seen l ↔ (x ∈ l ∧ x ∉ seen) := by
  induction l generalizing seen with
  | nil => simp [dedupTitles]
  | cons t ts ih =>
      by_cases hc : (seen.contains t) = true
      · have htm : t ∈ seen := (contains_iff_mem seen t).mp hc
        simp only [dedupTitles, hc, if_true]
        rw [ih]
        constructor
        · rintro ⟨hx, hns⟩
          exact ⟨List.mem_cons_of_mem t hx, hns⟩
        · rintro ⟨hx, hns⟩
          rcases List.mem_cons.mp hx with rfl | hx2
          · exact absurd htm hns
          · exact ⟨hx2, hns⟩
      · have htm : t ∉ seen := fun hm => hc ((contains_iff_mem seen t).mpr hm)
        simp only [Bool.not_eq_true] at hc
        simp only [dedupTitles, hc, Bool.false_eq_true, if_false]
        simp only [List.mem_cons]
        rw [ih]
        constructor
        · rintro (rfl | ⟨hx, hns⟩)
          · exact ⟨Or.inl rfl, htm⟩
          · refine ⟨Or.inr hx, ?_⟩
            intro hmem
            exact hns (List.mem_cons_of_mem t hmem)
        · rintro ⟨rfl | hx, hns⟩
          · exact Or.inl rfl
          · by_cases hxt : x = t
            · exact Or.inl hxt
            · exact Or.inr ⟨hx, by simp [List.mem_cons, hxt, hns]⟩

theorem lt_length_of_get? {α : Type} {l : List α} {j : Nat} {a : α}
    (h : l.get? j = some a) : j < l.length := by
  by_contra hge
  rw [List.get?_eq_none.mpr (Nat.le_of_not_lt hge)] at h
  exact Option.noConfusion h

theorem dedupTitles_nodup (l : List String) (seen : List String) :
    (dedupTitles seen l).Nodup := by
  induction l generalizing seen with
  | nil => simp [dedupTitles]
  | cons t ts ih =>
      by_cases hc : (seen.contains t) = true
      · simp only [dedupTitles, hc, if_true]
        exact ih seen
      · simp only [Bool.not_eq_true] at hc
        simp only [dedupTitles, hc, Bool.false_eq_true, if_false]
        refine List.nodup_cons.mpr ⟨?_, ih (t :: seen)⟩
        intro hmem
        exact ((dedupTitles_mem (t :: seen) ts t).mp hmem).2 (List.mem_cons_self t seen)

/-! ### Branch shapes of `create_reporting_entry` -/

/-- The row written by the event-backed update branch. -/
def updatedEntry (db : DB) (ev : Event) (rin : ReportingCreate)
    (ex : Reporting) : Reporting :=
  { ex with
    event_title := ev.title,
    event_date := ev.start_date,
    event_start_time := ev.start_time,
    visitor := some rin.visitor,
    vacation := mergeOpt (detectAuto db.events ev).1 rin.vacation,
    holiday := mergeOpt (detectAuto db.events ev).2.1 rin.holiday,
    special := mergeOpt (detectAuto db.events ev).2.2 rin.special }

/-- The row written by the event-backed insert branch. -/
def freshEntry (db : DB) (ev : Event) (rin : ReportingCreate) : Reporting :=
  { id := db.next_id,
    event_id := ev.id,
    event_title := ev.title,
    event_date := ev.start_date,
    event_start_time := ev.start_time,
    visitor := some rin.visitor,
    vacation := mergeOpt (detectAuto db.events ev).1 rin.vacation,
    holiday := mergeOpt (detectAuto db.events ev).2.1 rin.holiday,
    special := mergeOpt (detectAuto db.events ev).2.2 rin.special }

theorem create_manual_shape {db : DB} {rin : ReportingCreate}
    (hfind : db.events.find? (fun e => e.id == rin.event_id) = none) :
    create_reporting_entry db rin
      = ({ db with reportings := db.reportings ++ [manualEntry rin db.next_id],
                   next_id := db.next_id + 1 }, manualEntry rin db.next_id) := by
  unfold create_reporting_entry
  rw [hfind]

theorem create_update_shape {db : DB} {rin : ReportingCreate} {ev : Event}
    {j : Nat} {ex : Reporting}
    (hfind : db.events.find? (fun e => e.id == rin.event_id) = some ev)
    (hlatest : latestWithIdx db.reportings ev.id = some (j, ex)) :
    create_reporting_entry db rin
      = ({ db with reportings := db.reportings.set j (updatedEntry db ev rin ex) },
         updatedEntry db ev rin ex) := by
  unfold create_reporting_entry
  simp only [hfind, hlatest]
  rfl

theorem create_insert_shape {db : DB} {rin : ReportingCreate} {ev : Event}
    (hfind : db.events.find? (fun e => e.id == rin.event_id) = some ev)
    (hlatest : latestWithIdx db.reportings ev.id = none) :
    create_reporting_entry db rin
      = ({ db with reportings := db.reportings ++ [freshEntry db ev rin],
                   next_id := db.next_id + 1 }, freshEntry db ev rin) := by
  unfold create_reporting_entry
  simp only [hfind, hlatest]
  rfl

/-! ### `detectAuto` characterisation -/

theorem detectAuto_no_date {events : List Event} {ev : Event}
    (hnd : ev.start_date = none) : detectAuto events ev = (none, none, none) := by
  unfold detectAuto
  rw [hnd]
  rfl

theorem detectAuto_vacation {events : List Event} {ev : Event} {d : Int}
    (hdate : ev.start_date = some d) :
    (detectAuto events ev).1 = specFirstOverlapTitle events ev.id d "Ferien" := by
  unfold detectAuto
  rw [hdate]
  simp only [detectVacationHoliday_eq, firstSurvivor_overlapping_eq]

theorem detectAuto_holiday {events : List Event} {ev : Event} {d : Int}
    (hdate : ev.start_date = some d) :
    (detectAuto events ev).2.1
      = specFirstOverlapTitle events ev.id d "Feiertag" := by
  unfold detectAuto
  rw [hdate]
  simp only [detectVacationHoliday_eq, firstSurvivor_overlapping_eq]

theorem detectAuto_special {events : List Event} {ev : Event} {d t : Int}
    (hdate : ev.start_date = some d) (htime : ev.start_time = some t) :
    (detectAuto events ev).2.2
      = specialValueOf (specSameSlotTitles events ev.id d t) := by
  unfold detectAuto
  rw [hdate]
  simp only [htime, specialTitles_eq]

theorem detectAuto_no_time {events : List Event} {ev : Event} {d : Int}
    (hdate : ev.start_date = some d) (hnt : ev.start_time = none) :
    (detectAuto events ev).2.2 = none := by
  unfold detectAuto
  rw [hdate]
  simp only [hnt]
  rfl

/-- On both event-backed branches the returned row carries the merged
annotation fields and the caller's visitor count. -/
theorem create_fields_event {db : DB} {rin : ReportingCreate} {ev : Event}
    (hfind : db.events.find? (fun e => e.id == rin.event_id) = some ev) :
    ((create_reporting_entry db rin).2).vacation
      = mergeOpt (detectAuto db.events ev).1 rin.vacation ∧
    ((create_reporting_entry db rin).2).holiday
      = mergeOpt (detectAuto db.events ev).2.1 rin.holiday ∧
    ((create_reporting_entry db rin).2).special
      = mergeOpt (detectAuto db.events ev).2.2 rin.special ∧
    ((create_reporting_entry db rin).2).visitor = some rin.visitor := by
  cases hlatest : latestWithIdx db.reportings ev.id with
  | none => rw [create_insert_shape hfind hlatest]; exact ⟨rfl, rfl, rfl, rfl⟩
  | some jb =>
      obtain ⟨j, ex⟩ := jb
      rw [create_update_shape hfind hlatest]
      exact ⟨rfl, rfl, rfl, rfl⟩

/-- The returned row's visitor column is the caller's visitor count on
every branch of `create_reporting_entry`. -/
theorem create_visitor (db : DB) (rin : ReportingCreate) :
    ((create_reporting_entry db rin).2).visitor = some rin.visitor := by
  cases hfind : db.events.find? (fun e => e.id == rin.event_id) with
  | none => rw [create_manual_shape hfind]; rfl
  | some ev => exact (create_fields_event hfind).2.2.2

/-! ### Concrete stores used by the witnesses -/

def catFerien : Category := { id := 1, name := "Ferien" }

def catFeiertag : Category := { id := 2, name := "Feiertag" }

def catSpecial : Category := { id := 3, name := "Special" }

def evMain : Event :=
  { id := 1, title := "Gottesdienst", start_date := some 10, end_date := none,
    start_time := some 600, categories := [] }

def evFerien : Event :=
  { id := 2, title := "Sommerferien", start_date := some 7, end_date := some 12,
    start_time := none, categories := [catFerien] }

def evSpecial : Event :=
  { id := 4, title := "Jugendgottesdienst", start_date := some 10,
    end_date := none, start_time := some 600, categories := [catSpecial] }

def evNoDate : Event :=
  { id := 6, title := "Undatiert", start_date := none, end_date := none,
    start_time := none, categories := [] }

def evBoth : Event :=
  { id := 7, title := "Festwoche", start_date := some 8, end_date := some 12,
    start_time := none, categories := [catFerien, catFeiertag] }

def repOld : Reporting :=
  { id := 5, event_id := 1, event_title := "Alt", event_date := none,
    event_start_time := none, visitor := some 3, vacation := none,
    holiday := none, special := none }

def rinBase : ReportingCreate :=
  { event_id := 1, visitor := 25, vacation := none, holiday := none,
    special := none, event_title := none, event_date := none,
    event_start_time := none }

def dbEmpty : DB := { events := [], reportings := [], next_id := 1 }

/-! ## Claim theorems -/

/-- C4: when the submitted `event_id` resolves to no stored event,
`submit_reporting` unconditionally appends one new row built only from the
caller-supplied fields (title defaulting to `""`, falsy event id
defaulting to 99), never looking up or updating an existing row, so the
row count for that event id grows by exactly one. -/
theorem manual_fallback_always_inserts (db : DB) (rin : ReportingCreate)
    (hfind : db.events.find? (fun e => e.id == rin.event_id) = none) :
    ((create_reporting_entry db rin).1).reportings
      = db.reportings ++ [(create_reporting_entry db rin).2] ∧
    ((create_reporting_entry db rin).2).event_id = pyIntOr rin.event_id 99 ∧
    (rin.event_id = 0 → ((create_reporting_entry db rin).2).event_id = 99) ∧
    (rin.event_id ≠ 0 →
      ((create_reporting_entry db rin).2).event_id = rin.event_id) ∧
    ((create_reporting_entry db rin).2).event_title = pyStrOr rin.event_title "" ∧
    (rin.event_title = none →
      ((create_reporting_entry db rin).2).event_title = "") ∧
    ((create_reporting_entry db rin).2).event_date = rin.event_date ∧
    ((create_reporting_entry db rin).2).event_start_time = rin.event_start_time ∧
    ((create_reporting_entry db rin).2).visitor = some rin.visitor ∧
    ((create_reporting_entry db rin).2).vacation = rin.vacation ∧
    ((create_reporting_entry db rin).2).holiday = rin.holiday ∧
    ((create_reporting_entry db rin).2).special = rin.special ∧
    countFor ((create_reporting_entry db rin).1).reportings
        ((create_reporting_entry db rin).2).event_id
      = countFor db.reportings ((create_reporting_entry db rin).2).event_id + 1 := by
  rw [create_manual_shape hfind]
  refine ⟨rfl, rfl, ?_, ?_, rfl, ?_, rfl, rfl, rfl, rfl, rfl, rfl, ?_⟩
  · intro h0
    simp [manualEntry, pyIntOr, h0]
  · intro h0
    simp [manualEntry, pyIntOr, h0]
  · intro ht
    simp [manualEntry, pyStrOr, ht]
  · rw [countFor_append_single]
    simp

/-- C4 witness. -/
theorem manual_fallback_always_inserts_witness :
    ((create_reporting_entry dbEmpty rinBase).1).reportings
      = dbEmpty.reportings ++ [(create_reporting_entry dbEmpty rinBase).2] ∧
    ((create_reporting_entry dbEmpty rinBase).2).event_id
      = pyIntOr rinBase.event_id 99 := by
  have h := manual_fallback_always_inserts dbEmpty rinBase (by rfl)
  exact ⟨h.1, h.2.1⟩

/-- C6: when the resolved event has no start date, no overlap or same-slot
detection happens: the written row's vacation/holiday/special are the
caller-supplied values verbatim. -/
theorem no_date_skips_detection (db : DB) (rin : ReportingCreate) (ev : Event)
    (hfind : db.events.find? (fun e => e.id == rin.event_id) = some ev)
    (hnd : ev.start_date = none) :
    (detectAuto db.events ev).1 = none ∧
    (detectAuto db.events ev).2.1 = none ∧
    (detectAuto db.events ev).2.2 = none ∧
    ((create_reporting_entry db rin).2).vacation = rin.vacation ∧
    ((create_reporting_entry db rin).2).holiday = rin.holiday ∧
    ((create_reporting_entry db rin).2).special = rin.special := by
  obtain ⟨hv, hh, hs, _⟩ := create_fields_event hfind
  rw [hv, hh, hs, detectAuto_no_date hnd]
  exact ⟨rfl, rfl, rfl, rfl, rfl, rfl⟩

/-- C6 witness. -/
theorem no_date_skips_detection_witness :
    ((create_reporting_entry
        { events := [evNoDate], reportings := [], next_id := 1 }
        { rinBase with event_id := 6, vacation := some "Carryover" }).2).vacation
      = some "Carryover" := by
  have h := no_date_skips_detection
    { events := [evNoDate], reportings := [], next_id := 1 }
    { rinBase with event_id := 6, vacation := some "Carryover" }
    evNoDate (by rfl) (by rfl)
  exact h.2.2.2.1

/-- C8: every call to `submit_reporting` either appends exactly one
reporting row or overwrites exactly one existing position, and the event
table is never mutated, on all three branches. -/
theorem reporting_frame_effect (db : DB) (rin : ReportingCreate) :
    ((create_reporting_entry db rin).1).events = db.events ∧
    ((∃ e, ((create_reporting_entry db rin).1).reportings
        = db.reportings ++ [e]) ∨
     (∃ j e, j < db.reportings.length ∧
        ((create_reporting_entry db rin).1).reportings
          = db.reportings.set j e)) := by
  cases hfind : db.events.find? (fun e => e.id == rin.event_id) with
  | none =>
      rw [create_manual_shape hfind]
      exact ⟨rfl, Or.inl ⟨manualEntry rin db.next_id, rfl⟩⟩
  | some ev =>
      cases hlatest : latestWithIdx db.reportings ev.id with
      | none =>
          rw [create_insert_shape hfind hlatest]
          exact ⟨rfl, Or.inl ⟨freshEntry db ev rin, rfl⟩⟩
      | some jb =>
          obtain ⟨j, ex⟩ := jb
          rw [create_update_shape hfind hlatest]
          exact ⟨rfl, Or.inr ⟨j, updatedEntry db ev rin ex,
            lt_length_of_get? (latestWithIdx_get? hlatest), rfl⟩⟩

/-- C10: `submit_reporting_manual` applies the 99 default to the falsy
event id 0. -/
theorem manual_zero_event_id_defaults (db : DB) (rin : ReportingCreate)
    (h0 : rin.event_id = 0) :
    ((create_reporting_entry_manual db rin).2).event_id = 99 := by
  show (manualEntry rin db.next_id).event_id = 99
  simp [manualEntry, pyIntOr, h0]

/-- C10 witness. -/
theorem manual_zero_event_id_defaults_witness :
    ((create_reporting_entry_manual dbEmpty
        { rinBase with event_id := 0 }).2).event_id = 99 :=
  manual_zero_event_id_defaults dbEmpty { rinBase with event_id := 0 } rfl

/-- C1: when at least one reporting row exists for the resolved event,
`submit_reporting` mutates in place the row with the highest id among
those sharing the event id, keeps its id, leaves every other position
untouched, preserves the row count for that event id, and a second
successive submission for the same event id preserves it again (so a
count of 1 stays 1 across two calls). -/
theorem upsert_targets_latest_entry (db : DB) (rin rin2 : ReportingCreate)
    (ev : Event) (j : Nat) (ex : Reporting)
    (hfind : db.events.find? (fun e => e.id == rin.event_id) = some ev)
    (hfind2 : db.events.find? (fun e => e.id == rin2.event_id) = some ev)
    (hlatest : latestWithIdx db.reportings ev.id = some (j, ex)) :
    ((create_reporting_entry db rin).2).id = ex.id ∧
    db.reportings.get? j = some ex ∧
    ex.event_id = ev.id ∧
    (∀ r ∈ db.reportings, r.event_id = ev.id → r.id ≤ ex.id) ∧
    ((create_reporting_entry db rin).1).reportings
      = db.reportings.set j (create_reporting_entry db rin).2 ∧
    (∀ k, k ≠ j →
      ((create_reporting_entry db rin).1).reportings.get? k
        = db.reportings.get? k) ∧
    countFor ((create_reporting_entry db rin).1).reportings ev.id
      = countFor db.reportings ev.id ∧
    countFor
        ((create_reporting_entry (create_reporting_entry db rin).1 rin2).1).reportings
        ev.id
      = countFor db.reportings ev.id := by
  have hget := latestWithIdx_get? hlatest
  have heid := latestWithIdx_event_id hlatest
  have hshape := create_update_shape hfind hlatest
  have hcount1 : countFor ((create_reporting_entry db rin).1).reportings ev.id
      = countFor db.reportings ev.id := by
    rw [hshape]
    exact countFor_set (updatedEntry db ev rin ex) hget rfl ev.id
  refine ⟨?_, hget, heid, latestWithIdx_max hlatest, ?_, ?_, hcount1, ?_⟩
  · rw [hshape]
    rfl
  · rw [hshape]
  · intro k hk
    rw [hshape]
    exact get?_set_ne _ k hk
  · have hev1 : ((create_reporting_entry db rin).1).events = db.events := by
      rw [hshape]
    have hfind1 : ((create_reporting_entry db rin).1).events.find?
        (fun e => e.id == rin2.event_id) = some ev := by
      rw [hev1]
      exact hfind2
    have hmem : updatedEntry db ev rin ex ∈
        ((create_reporting_entry db rin).1).reportings := by
      rw [hshape]
      exact List.get?_mem (get?_set_self _ hget)
    have hueid : (updatedEntry db ev rin ex).event_id = ev.id := by
      show ex.event_id = ev.id
      exact heid
    have hsome := latestWithIdx_isSome_of_mem hmem hueid
    obtain ⟨jb2, hlatest2⟩ := Option.isSome_iff_exists.mp hsome
    obtain ⟨j2, ex2⟩ := jb2
    have hget2 := latestWithIdx_get? hlatest2
    have hshape2 := create_update_shape hfind1 hlatest2
    calc countFor
          ((create_reporting_entry (create_reporting_entry db rin).1 rin2).1).reportings
          ev.id
        = countFor ((create_reporting_entry db rin).1).reportings ev.id := by
          rw [hshape2]
          exact countFor_set
            (updatedEntry (create_reporting_entry db rin).1 ev rin2 ex2)
            hget2 rfl ev.id
      _ = countFor db.reportings ev.id := hcount1

/-- C1 witness. -/
theorem upsert_targets_latest_entry_witness :
    ((create_reporting_entry
        { events := [evMain], reportings := [repOld], next_id := 6 }
        rinBase).2).id = repOld.id ∧
    countFor
        ((create_reporting_entry
          (create_reporting_entry
            { events := [evMain], reportings := [repOld], next_id := 6 }
            rinBase).1 rinBase).1).reportings evMain.id
      = countFor [repOld] evMain.id := by
  have h := upsert_targets_latest_entry
    { events := [evMain], reportings := [repOld], next_id := 6 }
    rinBase rinBase evMain 0 repOld (by rfl) (by rfl) (by rfl)
  exact ⟨h.1, h.2.2.2.2.2.2.2⟩

/-- C2: for a resolved event dated `d`, the written vacation annotation is
the title of the first other event with start ≤ `d`, end absent or ≥ `d`,
and category `"Ferien"` (and analogously `"Feiertag"` for holiday), the
caller value being used only when no such event exists; a detected title
always overrides the caller's value. -/
theorem vacation_holiday_first_match (db : DB) (rin : ReportingCreate)
    (ev : Event) (d : Int)
    (hfind : db.events.find? (fun e => e.id == rin.event_id) = some ev)
    (hdate : ev.start_date = some d) :
    ((create_reporting_entry db rin).2).vacation
      = mergeOpt (specFirstOverlapTitle db.events ev.id d "Ferien")
          rin.vacation ∧
    ((create_reporting_entry db rin).2).holiday
      = mergeOpt (specFirstOverlapTitle db.events ev.id d "Feiertag")
          rin.holiday ∧
    (∀ t, specFirstOverlapTitle db.events ev.id d "Ferien" = some t →
      ((create_reporting_entry db rin).2).vacation = some t) ∧
    (∀ t, specFirstOverlapTitle db.events ev.id d "Feiertag" = some t →
      ((create_reporting_entry db rin).2).holiday = some t) := by
  obtain ⟨hv, hh, _, _⟩ := create_fields_event hfind
  refine ⟨?_, ?_, ?_, ?_⟩
  · rw [hv, detectAuto_vacation hdate]
  · rw [hh, detectAuto_holiday hdate]
  · intro t ht
    rw [hv, detectAuto_vacation hdate, ht]
    rfl
  · intro t ht
    rw [hh, detectAuto_holiday hdate, ht]
    rfl

/-- C2 witness. -/
theorem vacation_holiday_first_match_witness :
    ((create_reporting_entry
        { events := [evMain, evFerien], reportings := [], next_id := 1 }
        { rinBase with vacation := some "ignored" }).2).vacation
      = mergeOpt
          (specFirstOverlapTitle [evMain, evFerien] evMain.id 10 "Ferien")
          (some "ignored") := by
  have h := vacation_holiday_first_match
    { events := [evMain, evFerien], reportings := [], next_id := 1 }
    { rinBase with vacation := some "ignored" } evMain 10 (by rfl) (by rfl)
  exact h.1

/-- C3: for a resolved event with a start date and a start time, the
written special annotation is built from the non-empty titles of all other
events in exactly the same date-time slot carrying `"Lobpreisabend"` or
`"Special"`: deduplicated keeping first occurrences (order-preserving,
duplicate-free, same membership), joined with `", "`; when the list is
empty the auto-detected value is `none` (not `""`) and the caller value is
used. -/
theorem special_same_slot_detection (db : DB) (rin : ReportingCreate)
    (ev : Event) (d t : Int)
    (hfind : db.events.find? (fun e => e.id == rin.event_id) = some ev)
    (hdate : ev.start_date = some d) (htime : ev.start_time = some t) :
    (specSameSlotTitles db.events ev.id d t = [] →
      (detectAuto db.events ev).2.2 = none ∧
      ((create_reporting_entry db rin).2).special = rin.special) ∧
    (specSameSlotTitles db.events ev.id d t ≠ [] →
      ((create_reporting_entry db rin).2).special
        = some (String.intercalate ", "
            (dedupTitles [] (specSameSlotTitles db.events ev.id d t)))) ∧
    (dedupTitles [] (specSameSlotTitles db.events ev.id d t)).Nodup ∧
    (dedupTitles [] (specSameSlotTitles db.events ev.id d t)).Sublist
      (specSameSlotTitles db.events ev.id d t) ∧
    (∀ s, s ∈ dedupTitles [] (specSameSlotTitles db.events ev.id d t)
        ↔ s ∈ specSameSlotTitles db.events ev.id d t) := by
  obtain ⟨_, _, hs, _⟩ := create_fields_event hfind
  have hauto := @detectAuto_special db.events ev d t hdate htime
  refine ⟨?_, ?_, dedupTitles_nodup _ _, dedupTitles_sublist _ _, ?_⟩
  · intro hempty
    rw [hauto, hempty]
    exact ⟨rfl, by rw [hs, hauto, hempty]; rfl⟩
  · intro hne
    rw [hs, hauto]
    cases hlist : specSameSlotTitles db.events ev.id d t with
    | nil => exact absurd hlist hne
    | cons a as => rfl
  · intro s
    rw [dedupTitles_mem]
    simp

/-- C3 witness: two same-slot "Special" events with the identical title
collapse to one occurrence. -/
theorem special_same_slot_detection_witness :
    ((create_reporting_entry
        { events := [evMain, evSpecial,
            { evSpecial with id := 5 }], reportings := [], next_id := 1 }
        rinBase).2).special = some "Jugendgottesdienst" := by
  have h := special_same_slot_detection
    { events := [evMain, evSpecial, { evSpecial with id := 5 }],
      reportings := [], next_id := 1 }
    rinBase evMain 10 600 (by rfl) (by rfl) (by rfl)
  have hne : specSameSlotTitles
      [evMain, evSpecial, { evSpecial with id := 5 }] evMain.id 10 600
      ≠ [] := by decide
  rw [h.2.1 hne]
  decide

def rawNoVisitor : RawReporting :=
  { event_id := some 1, visitor := none, vacation := none, holiday := none,
    special := none, event_title := none, event_date := none,
    event_start_time := none }

def rawOk : RawReporting :=
  { event_id := some 5, visitor := some 7, vacation := none, holiday := none,
    special := none, event_title := none, event_date := none,
    event_start_time := none }

def entW5 : Reporting :=
  { id := 1, event_id := 5, event_title := "", event_date := none,
    event_start_time := none, visitor := some 7, vacation := none,
    holiday := none, special := none }

def dbW5 : DB := { events := [], reportings := [entW5], next_id := 2 }

/-- C5 counterexample: a submission without a `visitor` field is rejected
by schema validation (`visitor : int` is required in `ReportingCreate`),
so the visitor input of `submit_reporting` is not optional and `None` can
never be written through a submission. -/
theorem visitor_optional_counterexample :
    submit_reporting dbEmpty rawNoVisitor = none := rfl

/-- C5 (amended): the visitor input of `submit_reporting` is a required
integer; any accepted submission writes exactly the submitted integer into
the entry's visitor column, read back unchanged. -/
theorem visitor_required_roundtrip (db : DB) (raw : RawReporting)
    (db2 : DB) (ent : Reporting)
    (h : submit_reporting db raw = some (db2, ent)) :
    raw.visitor ≠ none ∧ ent.visitor = raw.visitor := by
  unfold submit_reporting ReportingCreate.validate at h
  cases heid : raw.event_id with
  | none => rw [heid] at h; simp at h
  | some eid =>
      cases hvis : raw.visitor with
      | none => rw [heid, hvis] at h; simp at h
      | some v =>
          rw [heid, hvis] at h
          simp only [Option.map_some'] at h
          have hpair := Option.some.inj h
          have hent : ent
              = (create_reporting_entry db
                  { event_id := eid, visitor := v, vacation := raw.vacation,
                    holiday := raw.holiday, special := raw.special,
                    event_title := raw.event_title,
                    event_date := raw.event_date,
                    event_start_time := raw.event_start_time }).2 :=
            (congrArg Prod.snd hpair).symm
          refine ⟨by simp, ?_⟩
          rw [hent]
          exact create_visitor db _

/-- C5 witness. -/
theorem visitor_required_roundtrip_witness :
    rawOk.visitor ≠ none ∧ entW5.visitor = rawOk.visitor :=
  visitor_required_roundtrip dbEmpty rawOk dbW5 entW5 (by decide)

def rawAllAbsent : RawReporting :=
  { event_id := none, visitor := none, vacation := none, holiday := none,
    special := none, event_title := none, event_date := none,
    event_start_time := none }

def rawManual : RawReporting :=
  { event_id := some 0, visitor := some 4, vacation := none, holiday := none,
    special := none, event_title := none, event_date := none,
    event_start_time := none }

def entW7 : Reporting :=
  { id := 1, event_id := 99, event_title := "", event_date := none,
    event_start_time := none, visitor := some 4, vacation := none,
    holiday := none, special := none }

def dbW7 : DB := { events := [], reportings := [entW7], next_id := 2 }

/-- C7 counterexample: calling `submit_reporting_manual` with `event_id`
(and `event_title`) absent is rejected by schema validation
(`event_id : int` and `visitor : int` are required), so no entry with the
documented defaults is produced and no row is inserted. -/
theorem manual_no_args_rejected_counterexample :
    submit_reporting_manual dbEmpty rawAllAbsent = none := rfl

/-- C7 (amended): `submit_reporting_manual` requires `event_id` and
`visitor`; for every accepted call with the falsy `event_id = 0` and
`event_title` absent, the resulting entry has event id 99 and the empty
title, and a new row is always appended, with all annotation fields taken
verbatim from the payload (no upsert lookup, no auto-detection). -/
theorem manual_endpoint_defaults (db : DB) (raw : RawReporting)
    (db2 : DB) (ent : Reporting)
    (h : submit_reporting_manual db raw = some (db2, ent))
    (hid : raw.event_id = some 0) (htitle : raw.event_title = none) :
    ent.event_id = 99 ∧ ent.event_title = "" ∧
    db2.reportings = db.reportings ++ [ent] ∧
    db2.events = db.events ∧
    ent.visitor = raw.visitor ∧
    ent.vacation = raw.vacation ∧ ent.holiday = raw.holiday ∧
    ent.special = raw.special := by
  unfold submit_reporting_manual ReportingCreate.validate at h
  rw [hid] at h
  cases hvis : raw.visitor with
  | none => rw [hvis] at h; simp at h
  | some v =>
      rw [hvis] at h
      simp only [Option.map_some'] at h
      have hpair := Option.some.inj h
      have hent : ent
          = (create_reporting_entry_manual db
              { event_id := 0, visitor := v, vacation := raw.vacation,
                holiday := raw.holiday, special := raw.special,
                event_title := raw.event_title,
                event_date := raw.event_date,
                event_start_time := raw.event_start_time }).2 :=
        (congrArg Prod.snd hpair).symm
      have hdb2 : db2
          = (create_reporting_entry_manual db
              { event_id := 0, visitor := v, vacation := raw.vacation,
                holiday := raw.holiday, special := raw.special,
                event_title := raw.event_title,
                event_date := raw.event_date,
                event_start_time := raw.event_start_time }).1 :=
        (congrArg Prod.fst hpair).symm
      refine ⟨?_, ?_, ?_, ?_, ?_, ?_, ?_, ?_⟩
      · rw [hent]
        simp [create_reporting_entry_manual, manualEntry, pyIntOr]
      · rw [hent]
        simp [create_reporting_entry_manual, manualEntry, pyStrOr, htitle]
      · rw [hdb2, hent]
        rfl
      · rw [hdb2]
        rfl
      · rw [hent]
        rfl
      · rw [hent]
        rfl
      · rw [hent]
        rfl
      · rw [hent]
        rfl

/-- C7 witness. -/
theorem manual_endpoint_defaults_witness :
    entW7.event_id = 99 ∧ entW7.event_title = "" := by
  have h := manual_endpoint_defaults dbEmpty rawManual dbW7 entW7
    (by decide) rfl rfl
  exact ⟨h.1, h.2.1⟩

/-- C9: a single overlapping candidate event carrying both categories
`"Ferien"` and `"Feiertag"` supplies both annotations: when it is the only
other event in the store, the written vacation and holiday values are both
its title. -/
theorem single_candidate_supplies_both (db : DB) (rin : ReportingCreate)
    (ev other : Event) (d sd : Int)
    (hev : db.events = [ev, other])
    (hid : rin.event_id = ev.id)
    (hne : other.id ≠ ev.id)
    (hdate : ev.start_date = some d)
    (hosd : other.start_date = some sd)
    (hsd : sd ≤ d)
    (hend : ∀ ed, other.end_date = some ed → d ≤ ed)
    (hferien : "Ferien" ∈ catNames other)
    (hfeiertag : "Feiertag" ∈ catNames other) :
    ((create_reporting_entry db rin).2).vacation = some other.title ∧
    ((create_reporting_entry db rin).2).holiday = some other.title := by
  have hfind : db.events.find? (fun e => e.id == rin.event_id) = some ev := by
    rw [hev, hid]
    simp [List.find?]
  obtain ⟨hv, hh, _, _⟩ := create_fields_event hfind
  have hfirst : ∀ cat, cat ∈ catNames other →
      specFirstOverlapTitle db.events ev.id d cat = some other.title := by
    intro cat hcat
    rw [hev]
    unfold specFirstOverlapTitle
    have hne2 : (other.id == ev.id) = false := by simp [hne]
    cases hoe : other.end_date with
    | none => simp [List.find?, hne2, hosd, hsd, hoe, hcat]
    | some ed => simp [List.find?, hne2, hosd, hsd, hoe, hend ed hoe, hcat]
  rw [hv, detectAuto_vacation hdate, hfirst "Ferien" hferien]
  rw [hh, detectAuto_holiday hdate, hfirst "Feiertag" hfeiertag]
  exact ⟨rfl, rfl⟩

/-- C9 witness. -/
theorem single_candidate_supplies_both_witness :
    ((create_reporting_entry
        { events := [evMain, evBoth], reportings := [], next_id := 1 }
        rinBase).2).vacation = some evBoth.title ∧
    ((create_reporting_entry
        { events := [evMain, evBoth], reportings := [], next_id := 1 }
        rinBase).2).holiday = some evBoth.title :=
  single_candidate_supplies_both
    { events := [evMain, evBoth], reportings := [], next_id := 1 }
    rinBase evMain evBoth 10 8 rfl rfl (by decide) rfl rfl (by decide)
    (by intro ed h; simp [evBoth] at h; omega) (by decide) (by decide)

end CgbsPlanner
